import Mathlib

/-!
Verification of the `validate` package of nielskrijger/goutils.

This file gives a shallow embedding of `validate/validator.go`,
`validate/result.go` and the rule checkers of the package, and proves or
refutes the frozen claims about them.

Modelling conventions:
* A Go `reflect.Value` is modelled by the inductive `GoValue`.  All integer
  widths collapse to `Int`, all unsigned widths to `Nat`.  `float64` values
  are modelled by integers: the claims exercise only zero tests and order
  comparisons of floats, which the model preserves.  `chanV` stands for the
  kinds (chan, func, complex, unsafe pointer) that fall into the `default`
  branches of the Go kind switches.  `time.Time` values are not representable
  as `GoValue`s; the date rules are additionally modelled directly on a
  nanosecond timestamp (`MinDateTime` and friends below).
* A Go panic is modelled as `Except.error`; a Go function returning a
  possibly-nil `error` is modelled with `Option`.
* `interface{}` conversion (`reflect.Value.Interface()` followed by
  `reflect.ValueOf`) unwraps interface wrappers; this is `interfaceOf`.
* The process-wide tag cache of `mustParseTags` is semantically the identity
  (it memoizes a pure function) and is not modelled.
-/

namespace GoutilsValidate

/-- `FieldError` of validator.go: an error message for one field. -/
structure FieldError where
  field : String
  description : String
deriving DecidableEq, Repr

/-- `FieldErrors` of validator.go: an ordered collection of field errors. -/
abbrev FieldErrors := List FieldError

mutual

/-- A Go value as seen through `reflect`, restricted to the kinds the
validator distinguishes.  `iface` models a `reflect.Value` of kind
`Interface` (an interface-typed struct field); `invalid` models the zero
`reflect.Value` (a nil `interface{}`). -/
inductive GoValue where
  | str (s : String)
  | int (n : Int)
  | uint (n : Nat)
  | float (x : Int)
  | bool (b : Bool)
  | ptr (o : Option GoValue)
  | iface (o : Option GoValue)
  | slice (xs : List GoValue)
  | array (xs : List GoValue)
  | map (kvs : List (GoValue × GoValue))
  | struct (fields : List StructField)
  | invalid
  | chanV
deriving Repr

/-- One struct field: its name, its `validate:"..."` tag and its value. -/
inductive StructField where
  | mk (name : String) (tag : String) (value : GoValue)
deriving Repr

end

def StructField.name : StructField → String
  | .mk n _ _ => n

def StructField.tag : StructField → String
  | .mk _ t _ => t

def StructField.value : StructField → GoValue
  | .mk _ _ v => v

/-- Sequencing of possibly-panicking computations (`Except.bind`, written out
so that proofs can reduce it by cases). -/
def exBind (x : Except String α) (f : α → Except String β) : Except String β :=
  match x with
  | .error e => .error e
  | .ok a => f a



/-- Models `reflect.ValueOf(v.Interface())`: converting a `reflect.Value` to
`interface{}` and back strips interface wrappers; a nil interface becomes the
invalid (kindless) value. -/
def interfaceOf : GoValue → GoValue
  | .iface none => .invalid
  | .iface (some x) => interfaceOf x
  | .str s => .str s
  | .int n => .int n
  | .uint n => .uint n
  | .float x => .float x
  | .bool b => .bool b
  | .ptr o => .ptr o
  | .slice xs => .slice xs
  | .array xs => .array xs
  | .map kvs => .map kvs
  | .struct fs => .struct fs
  | .invalid => .invalid
  | .chanV => .chanV

/-- Models the pointer-dereferencing loop of `validateStructFields`:
`for f.Kind() == reflect.Ptr && !f.IsNil() { f = f.Elem() }`. -/
def derefPtrs : GoValue → GoValue
  | .ptr (some x) => derefPtrs x
  | .ptr none => .ptr none
  | .str s => .str s
  | .int n => .int n
  | .uint n => .uint n
  | .float x => .float x
  | .bool b => .bool b
  | .iface o => .iface o
  | .slice xs => .slice xs
  | .array xs => .array xs
  | .map kvs => .map kvs
  | .struct fs => .struct fs
  | .invalid => .invalid
  | .chanV => .chanV

theorem sizeOf_interfaceOf_le : (v : GoValue) → sizeOf (interfaceOf v) ≤ sizeOf v
  | .iface none => by simp [interfaceOf]
  | .iface (some x) => by
      have h := sizeOf_interfaceOf_le x
      simp [interfaceOf]
      omega
  | .str _ | .int _ | .uint _ | .float _ | .bool _ | .ptr _ | .slice _
  | .array _ | .map _ | .struct _ | .invalid | .chanV => by simp [interfaceOf]

theorem sizeOf_derefPtrs_le : (v : GoValue) → sizeOf (derefPtrs v) ≤ sizeOf v
  | .ptr none => by simp [derefPtrs]
  | .ptr (some x) => by
      have h := sizeOf_derefPtrs_le x
      simp [derefPtrs]
      omega
  | .str _ | .int _ | .uint _ | .float _ | .bool _ | .iface _ | .slice _
  | .array _ | .map _ | .struct _ | .invalid | .chanV => by simp [derefPtrs]

/-- Models `unicode.IsUpper(rune(field[0]))`: only fields whose name starts
with an upper-case letter are validated.  (Struct field names are ASCII in
this embedding.) -/
def isPublicField (name : String) : Bool :=
  match name.toList with
  | c :: _ => c.isUpper
  | [] => false

/-! ### The tag grammar: `splitUnescapedComma` and friends

`sepPattern = ((?:^|[^\\])(?:\\\\)*),` finds commas preceded by an even
number of backslashes.  `FindAllStringIndex` scans left to right,
non-overlapping; the functions below implement that scan directly. -/

/-- Length of the run of backslashes at the head of `cs`. -/
def bsRun : List Char → Nat
  | '\\' :: t => bsRun t + 1
  | _ => 0

/-- The regex fragment `(?:\\\\)*,` matched at the head of `cs`: an even
number of backslashes followed by a comma.  Returns the consumed characters
before the comma and the rest after the comma. -/
def bsPairsComma (cs : List Char) : Option (List Char × List Char) :=
  if bsRun cs % 2 = 0 ∧ (cs.drop (bsRun cs)).head? = some ',' then
    some (cs.take (bsRun cs), cs.drop (bsRun cs + 1))
  else none

/-- One match attempt of `sepPattern` at the current position; `atStart` is
true at the start of the whole string, where the `^` alternative applies
(and, being listed first, is preferred). -/
def sepMatch (cs : List Char) (atStart : Bool) : Option (List Char × List Char) :=
  if atStart = true ∧ (bsPairsComma cs).isSome then bsPairsComma cs
  else
    match cs with
    | c :: t => if c ≠ '\\' then (bsPairsComma t).map (fun r => (c :: r.1, r.2)) else none
    | [] => none



/-- The `FindAllStringIndex` scan of `splitUnescapedComma`: cut at every
separator match, left to right, non-overlapping.  `piece` holds the
characters of the current piece in reverse.  Every step consumes at least
one character, so the fuel — initialized to `cs.length + 1` below — never
runs out (`splitUCAux_fuel_irrelevant`); it only makes the recursion
structural. -/
def splitUCAux : Nat → List Char → Bool → List Char → List String
  | 0, cs, _, piece => [String.mk (piece.reverse ++ cs)]
  | fuel + 1, cs, atStart, piece =>
    match sepMatch cs atStart with
    | some (pre, rest) => String.mk (piece.reverse ++ pre) :: splitUCAux fuel rest false []
    | none =>
      match cs with
      | [] => [String.mk piece.reverse]
      | c :: t => splitUCAux fuel t false (c :: piece)

/-- `splitUnescapedComma` of validator.go. -/
def splitUnescapedComma (s : String) : List String :=
  splitUCAux (s.toList.length + 1) s.toList true []



/-- `strings.ReplaceAll(s, backslash-comma, ",")`, on characters. -/
def replaceEscapedCommas : List Char → List Char
  | '\\' :: ',' :: t => ',' :: replaceEscapedCommas t
  | c :: t => c :: replaceEscapedCommas t
  | [] => []

/-- `strings.SplitN(s, "=", 2)`, on characters: the part before the first
`=`, and (when a `=` is present) everything after it. -/
def splitEqOnce : List Char → List Char × Option (List Char)
  | [] => ([], none)
  | '=' :: t => ([], some t)
  | c :: t =>
    match splitEqOnce t with
    | (before, rest) => (c :: before, rest)

/-- `strings.Trim(s, " ")`, on characters. -/
def trimSpaces (cs : List Char) : List Char :=
  ((cs.dropWhile (· = ' ')).reverse.dropWhile (· = ' ')).reverse

/-! ### Rules, tags and the validator -/

/-- The name/param data of a `Tag`, as consumed by error formatters.  (The Go
`RuleErrorFunc` receives the whole `Tag`; the standard formatters read only
`Tag.Param`, and passing the `Rule` back into its own formatter would be a
non-positive occurrence, so the formatter receives this projection.) -/
structure TagInfo where
  name : String
  param : String
deriving DecidableEq, Repr

/-- `RuleChecker`: true = valid.  A Go panic inside a checker is `error`. -/
def RuleChecker := GoValue → String → Except String Bool

/-- `RuleErrorFunc`: produces the failure description. -/
def RuleErrorFunc := String → GoValue → TagInfo → String

/-- `ValidationRule` of validator.go.  `errorFunc = none` models a nil
`ErrorFunc` (as on the `optional` rule). -/
structure ValidationRule where
  tag : String
  checker : RuleChecker
  errorFunc : Option RuleErrorFunc

/-- `Tag` of validator.go: a parsed unit of a declaration string. -/
structure Tag where
  name : String
  rule : ValidationRule
  param : String

def Tag.info (t : Tag) : TagInfo := ⟨t.name, t.param⟩

/-- `Validator` of validator.go.  The rule map is an association list keyed
by `ValidationRule.tag` (later `AddRule`s would overwrite; the standard set
has distinct tags). -/
structure Validator where
  tagName : String
  rules : List ValidationRule
  fullErrorPath : Bool
  tagAliases : List (String × List Tag)

def Validator.lookupRule (mv : Validator) (name : String) : Option ValidationRule :=
  mv.rules.find? (fun r => r.tag == name)

def Validator.lookupAlias (mv : Validator) (name : String) : Option (List Tag) :=
  (mv.tagAliases.find? (fun a => a.1 == name)).map (·.2)

/-- The panic message of `mustParseTags`:
`fmt.Sprintf("unknown %s tag %q", mv.tagName, name)`. -/
def unknownTagMsg (mv : Validator) (name : String) : String :=
  "unknown " ++ mv.tagName ++ " tag \"" ++ name ++ "\""

/-- The name a piece of a declaration string parses to: unescape `\,`, split
at the first `=`, trim spaces from the part before it. -/
def pieceName (piece : String) : String :=
  String.mk (trimSpaces (splitEqOnce (replaceEscapedCommas piece.toList)).1)

/-- The param of a piece: the (trimmed) part after the first `=`, if any. -/
def pieceParam (piece : String) : String :=
  match (splitEqOnce (replaceEscapedCommas piece.toList)).2 with
  | some p => String.mk (trimSpaces p)
  | none => ""

/-- The per-piece loop body of `mustParseTags`. -/
def parsePieces (mv : Validator) : List String → Except String (List Tag)
  | [] => .ok []
  | piece :: rest =>
    let name := pieceName piece
    if name = "" then .error (unknownTagMsg mv name)
    else
      let param := pieceParam piece
      match mv.lookupRule name with
      | some rule =>
          exBind (parsePieces mv rest) (fun ts => .ok (⟨name, rule, param⟩ :: ts))
      | none =>
          match mv.lookupAlias name with
          | some aliasTags =>
              exBind (parsePieces mv rest) (fun ts => .ok (aliasTags ++ ts))
          | none => .error (unknownTagMsg mv name)

/-- `mustParseTags` of validator.go (the memoizing cache is semantically the
identity and is not modelled; a panic is `error`). -/
def mustParseTags (mv : Validator) (t : String) : Except String (List Tag) :=
  parsePieces mv (splitUnescapedComma t)

/-- The rule-chain loop of `singleField`: first failing checker wins; a
failing rule without an error function stops the chain silently. -/
def evalTags (v : GoValue) (field : String) : List Tag → Except String (Option FieldError)
  | [] => .ok none
  | t :: rest =>
    exBind (t.rule.checker v t.param) (fun ok =>
      if ok then evalTags v field rest
      else
        match t.rule.errorFunc with
        | none => .ok none
        | some ef => .ok (some ⟨field, ef field v t.info⟩))

/-- `singleField` of validator.go. -/
def singleField (mv : Validator) (v : GoValue) (field : String) (tag : String) :
    Except String (Option FieldError) :=
  exBind (mustParseTags mv tag) (fun tags => evalTags v field tags)

/-- `Validator.Field` of validator.go.  `.ok none` is a nil error,
`.ok (some fe)` the first failure. -/
def Field (mv : Validator) (val : GoValue) (field : String) (tags : String) :
    Except String (Option FieldError) :=
  if tags = "-" then .ok none
  else
    match val with
    | .ptr (some x) => Field mv (interfaceOf x) field tags
    | .invalid => singleField mv .invalid field tags
    | v => singleField mv v field tags
termination_by sizeOf val
decreasing_by
  have := sizeOf_interfaceOf_le x
  simp
  omega

/-! ### The standard rule checkers (rules.go) -/

/-- `Required` of rules.go: non-zero as defined by the Go spec.  The switch
is on `reflect.ValueOf(v).Kind()`. -/
def Required (v : GoValue) (_param : String) : Bool :=
  match v with
  | .str s => s.length != 0
  | .ptr o => o.isSome
  | .iface o => o.isSome
  | .slice xs => xs.length != 0
  | .map kvs => kvs.length != 0
  | .array xs => xs.length != 0
  | .int n => n != 0
  | .uint n => n != 0
  | .float x => x != 0
  | .bool b => b
  | .invalid => false
  | .struct _ => true
  | .chanV => false

def RequiredErr : RuleErrorFunc := fun field _ _ => field ++ " is required"

/-- `Optional` of rules.go: same predicate as `Required`; its rule has no
error function, so a failure stops the chain silently. -/
def Optional (v : GoValue) (_param : String) : Bool :=
  Required v ""

/-- `asInt` of rules.go (numeric parameters are decimal in this embedding). -/
def asInt (param : String) : Except String Int :=
  match param.toInt? with
  | some i => .ok i
  | none => .error ("cannot cast \"" ++ param ++ "\" to int")

def asUint (param : String) : Except String Nat :=
  match param.toNat? with
  | some i => .ok i
  | none => .error ("cannot cast \"" ++ param ++ "\" to uint")

def asFloat (param : String) : Except String Int :=
  match param.toInt? with
  | some i => .ok i
  | none => .error ("cannot cast \"" ++ param ++ "\" to float")

/-- `GTE` of rules.go. -/
def GTE (v : GoValue) (param : String) : Except String Bool :=
  match v with
  | .str s => exBind (asInt param) (fun p => .ok (decide ((s.length : Int) ≥ p)))
  | .slice xs => exBind (asInt param) (fun p => .ok (decide ((xs.length : Int) ≥ p)))
  | .map kvs => exBind (asInt param) (fun p => .ok (decide ((kvs.length : Int) ≥ p)))
  | .array xs => exBind (asInt param) (fun p => .ok (decide ((xs.length : Int) ≥ p)))
  | .int n => exBind (asInt param) (fun p => .ok (decide (n ≥ p)))
  | .uint n => exBind (asUint param) (fun p => .ok (decide (n ≥ p)))
  | .float x => exBind (asFloat param) (fun p => .ok (decide (x ≥ p)))
  | _ => .error "invalid type for gte tag"

def GTEErr : RuleErrorFunc := fun field v t =>
  match v with
  | .slice _ => field ++ " must contain at least " ++ t.param ++ " elements"
  | .map _ => field ++ " must contain at least " ++ t.param ++ " elements"
  | .array _ => field ++ " must contain at least " ++ t.param ++ " elements"
  | .str _ => field ++ " must be at least " ++ t.param ++ " characters long"
  | _ => field ++ " must be at least " ++ t.param

/-- `LTE` of rules.go. -/
def LTE (v : GoValue) (param : String) : Except String Bool :=
  match v with
  | .str s => exBind (asInt param) (fun p => .ok (decide ((s.length : Int) ≤ p)))
  | .slice xs => exBind (asInt param) (fun p => .ok (decide ((xs.length : Int) ≤ p)))
  | .map kvs => exBind (asInt param) (fun p => .ok (decide ((kvs.length : Int) ≤ p)))
  | .array xs => exBind (asInt param) (fun p => .ok (decide ((xs.length : Int) ≤ p)))
  | .int n => exBind (asInt param) (fun p => .ok (decide (n ≤ p)))
  | .uint n => exBind (asUint param) (fun p => .ok (decide (n ≤ p)))
  | .float x => exBind (asFloat param) (fun p => .ok (decide (x ≤ p)))
  | _ => .error "invalid type for lte tag"

def LTEErr : RuleErrorFunc := fun field v t =>
  match v with
  | .slice _ => field ++ " may not contain more than " ++ t.param ++ " elements"
  | .map _ => field ++ " may not contain more than " ++ t.param ++ " elements"
  | .array _ => field ++ " may not contain more than " ++ t.param ++ " elements"
  | .str _ => field ++ " must be at most " ++ t.param ++ " characters long"
  | _ => field ++ " maximum value is " ++ t.param

def validGenders : List String := ["male", "female", "genderqueer"]

/-- `Gender` of rules.go (the type assertion `v.(string)` panics on
non-strings). -/
def Gender (v : GoValue) (_param : String) : Except String Bool :=
  match v with
  | .str s => if s = "" then .ok true else .ok (validGenders.contains s)
  | _ => .error "invalid type for gender tag"

def GenderErr : RuleErrorFunc := fun field _ _ =>
  field ++ " must be either " ++ String.intercalate ", " validGenders

/-! ### Dates.  Timestamps are nanoseconds since the Unix epoch, UTC. -/

def nsPerDay : Int := 86400000000000

/-- The UTC calendar date of a timestamp, as the timestamp of its midnight
(what the spec means by "the current UTC calendar date, time-of-day zero"). -/
def dateOnly (t : Int) : Int := t.ediv nsPerDay * nsPerDay

def isLeapYear (y : Int) : Bool :=
  (y.emod 4 == 0 && y.emod 100 != 0) || y.emod 400 == 0

def daysInMonth (y m : Int) : Int :=
  if m = 2 then (if isLeapYear y then 29 else 28)
  else if m = 4 ∨ m = 6 ∨ m = 9 ∨ m = 11 then 30
  else 31

/-- Civil days since 1970-01-01 of the date y-m-d (proleptic Gregorian). -/
def daysFromCivil (y m d : Int) : Int :=
  let yy := if m ≤ 2 then y - 1 else y
  let era := yy.ediv 400
  let yoe := yy - era * 400
  let mp := (m + 9).emod 12
  let doy := (153 * mp + 2).ediv 5 + d - 1
  let doe := yoe * 365 + yoe.ediv 4 - yoe.ediv 100 + doy
  era * 146097 + doe - 719468

/-- The inverse of `daysFromCivil`: (year, month, day) of a civil day count. -/
def civilFromDays (z0 : Int) : Int × Int × Int :=
  let z := z0 + 719468
  let era := z.ediv 146097
  let doe := z - era * 146097
  let yoe := (doe - doe.ediv 1460 + doe.ediv 36524 - doe.ediv 146096).ediv 365
  let y := yoe + era * 400
  let doy := doe - (365 * yoe + yoe.ediv 4 - yoe.ediv 100)
  let mp := (5 * doy + 2).ediv 153
  let d := doy - (153 * mp + 2).ediv 5 + 1
  let m := mp + (if mp < 10 then 3 else -9)
  (y + (if m ≤ 2 then 1 else 0), m, d)

def digitVal (c : Char) : Int := (c.toNat : Int) - 48

/-- `time.Parse("2006-01-02", s)`, as a civil day count: exactly the shape
`YYYY-MM-DD` with a valid calendar date. -/
def parseYMD (s : String) : Option Int :=
  match s.toList with
  | [y1, y2, y3, y4, s1, m1, m2, s2, d1, d2] =>
    if s1 = '-' ∧ s2 = '-' ∧ [y1, y2, y3, y4, m1, m2, d1, d2].all Char.isDigit then
      let y := 1000 * digitVal y1 + 100 * digitVal y2 + 10 * digitVal y3 + digitVal y4
      let m := 10 * digitVal m1 + digitVal m2
      let d := 10 * digitVal d1 + digitVal d2
      if 1 ≤ m ∧ m ≤ 12 ∧ 1 ≤ d ∧ d ≤ daysInMonth y m then some (daysFromCivil y m d)
      else none
    else none
  | _ => none

/-- `parseDate` of rules.go, with `time.Now().UTC()` passed explicitly as
`now`.  Note the asymmetry of the source: the `"now"` branch returns the
full current timestamp (time-of-day included), while the fixed-date branch
zeroes hour/minute/second/nanosecond.  A date that fails to parse is a
panic (`panic(err)`). -/
def parseDate (now : Int) (date : String) : Except String Int :=
  if date = "now" then .ok now
  else
    match parseYMD date with
    | some d => .ok (d * nsPerDay)
    | none => .error ("parsing time \"" ++ date ++ "\" as \"2006-01-02\" failed")

/-- The `time.Time` case of `MinDate`:
`t.After(minDate) || t.Equal(minDate)` with `minDate = parseDate(param)`. -/
def MinDateTime (now : Int) (t : Int) (param : String) : Except String Bool :=
  exBind (parseDate now param) (fun minDate => .ok (decide (t > minDate) || decide (t = minDate)))

/-- The `time.Time` case of `MaxDate`:
`t.Before(maxDate) || t.Equal(maxDate)`. -/
def MaxDateTime (now : Int) (t : Int) (param : String) : Except String Bool :=
  exBind (parseDate now param) (fun maxDate => .ok (decide (t < maxDate) || decide (t = maxDate)))

/-- The kind switch of `MinDate` (after the single pointer dereference).  A
struct value of this embedding is never a `time.Time`, so the
`v.(time.Time)` assertion fails and the checker returns false. -/
def minDateKind (now : Int) (w : GoValue) (param : String) : Except String Bool :=
  match w with
  | .str s =>
    if s = "" then .ok true
    else
      match parseYMD s with
      | none => .ok false
      | some d => MinDateTime now (d * nsPerDay) param
  | .struct _ => .ok false
  | _ => .error "invalid type for mindate tag"

/-- `MinDate` of rules.go. -/
def MinDate (now : Int) (v : GoValue) (param : String) : Except String Bool :=
  match v with
  | .ptr none => .ok true
  | .ptr (some x) => minDateKind now x param
  | w => minDateKind now w param

def maxDateKind (now : Int) (w : GoValue) (param : String) : Except String Bool :=
  match w with
  | .str s =>
    if s = "" then .ok true
    else
      match parseYMD s with
      | none => .ok false
      | some d => MaxDateTime now (d * nsPerDay) param
  | .struct _ => .ok false
  | _ => .error "invalid type for maxdate tag"

/-- `MaxDate` of rules.go. -/
def MaxDate (now : Int) (v : GoValue) (param : String) : Except String Bool :=
  match v with
  | .ptr none => .ok true
  | .ptr (some x) => maxDateKind now x param
  | w => maxDateKind now w param

/-- The kind switch of `ISODate`.  A parsed `YYYY-MM-DD` string is always a
whole date (`isWholeDate` holds by construction), so the string case reduces
to parse success. -/
def isoDateKind (w : GoValue) : Except String Bool :=
  match w with
  | .str s => if s = "" then .ok true else .ok (parseYMD s).isSome
  | .struct _ => .ok false
  | _ => .error "invalid type for isodate tag"

/-- `ISODate` of rules.go. -/
def ISODate (v : GoValue) (_param : String) : Except String Bool :=
  match v with
  | .ptr none => .ok true
  | .ptr (some x) => isoDateKind x
  | w => isoDateKind w

def ISODateErr : RuleErrorFunc := fun field _ _ =>
  field ++ " is not a valid date (YYYY-MM-DD)"

def pad2 (n : Int) : String := (if n < 10 then "0" else "") ++ toString n

def pad4 (n : Int) : String :=
  (if n < 10 then "000" else if n < 100 then "00" else if n < 1000 then "0" else "") ++ toString n

/-- `time.Time.Format("2006-01-02")`. -/
def formatDateYMD (t : Int) : String :=
  match civilFromDays (t.ediv nsPerDay) with
  | (y, m, d) => pad4 y ++ "-" ++ pad2 m ++ "-" ++ pad2 d

/-- `nowToDateString` of rules.go. -/
def nowToDateString (now : Int) (date : String) : String :=
  if date = "now" then formatDateYMD now else date

def MinDateErr (now : Int) : RuleErrorFunc := fun field _ t =>
  field ++ " minimum date is " ++ nowToDateString now t.param

def MaxDateErr (now : Int) : RuleErrorFunc := fun field _ t =>
  field ++ " maximum date is " ++ nowToDateString now t.param

/-! ### Pattern checkers -/

def isAzLower (c : Char) : Bool := 97 ≤ c.toNat && c.toNat ≤ 122

def isAzUpper (c : Char) : Bool := 65 ≤ c.toNat && c.toNat ≤ 90

def isDigit09 (c : Char) : Bool := 48 ≤ c.toNat && c.toNat ≤ 57

/-- `regexpAz`: `^[a-z][a-z_]*$`. -/
def azMatch (s : String) : Bool :=
  match s.toList with
  | c :: rest => isAzLower c && rest.all (fun x => isAzLower x || x = '_')
  | [] => false

/-- `regexpAZ09`: `^[a-zA-Z0-9][a-zA-Z0-9_]*$`. -/
def aZ09Match (s : String) : Bool :=
  match s.toList with
  | c :: rest =>
    (isAzLower c || isAzUpper c || isDigit09 c) &&
      rest.all (fun x => isAzLower x || isAzUpper x || isDigit09 x || x = '_')
  | [] => false

def resourceChar (c : Char) : Bool := isAzLower c || isDigit09 c || c = '-' || c = '/'

def resourcePatternChar (c : Char) : Bool := resourceChar c || c = '*'

/-- `regexpResourceName`: `mtx:` then colon-separated nonempty segments of
lowercase letters, digits, dash and slash. -/
def resourceNameMatch (s : String) : Bool :=
  s.startsWith "mtx:" &&
    ((s.drop 4).splitOn ":").all (fun seg => !seg.isEmpty && seg.toList.all resourceChar)

/-- `regexpResourcePattern`: like `regexpResourceName` but segments may also
contain the `*` wildcard. -/
def resourcePatternMatch (s : String) : Bool :=
  s.startsWith "mtx:" &&
    ((s.drop 4).splitOn ":").all (fun seg => !seg.isEmpty && seg.toList.all resourcePatternChar)

mutual

/-- `RegexChecker` of rules.go: a string (empty is valid) or a collection of
strings, every element checked recursively; any other kind panics.  `re`
abstracts `regexp.MatchString`. -/
def RegexChecker (tagName : String) (re : String → Bool) (v : GoValue) : Except String Bool :=
  match v with
  | .array xs => regexAllElems tagName re xs
  | .slice xs => regexAllElems tagName re xs
  | .str s => if s = "" then .ok true else .ok (re s)
  | _ => .error ("invalid type for " ++ tagName ++ " tag")
termination_by sizeOf v

/-- The element loop of `RegexChecker`: `st.Index(i).Interface()`. -/
def regexAllElems (tagName : String) (re : String → Bool) : List GoValue → Except String Bool
  | [] => .ok true
  | x :: rest =>
    exBind (RegexChecker tagName re (interfaceOf x)) (fun ok =>
      if ok then regexAllElems tagName re rest else .ok false)
termination_by xs => sizeOf xs
decreasing_by
  all_goals
    try have hle := sizeOf_interfaceOf_le x
  all_goals
    try simp
  all_goals
    try omega

end

def AzErr : RuleErrorFunc := fun field _ _ =>
  field ++ " must contain a-z, _ and not start with a _"

def AZ09Err : RuleErrorFunc := fun field _ _ =>
  field ++ " must contain 0-9, A-Z, _ and not start with a _"

def NameErr : RuleErrorFunc := fun field _ _ =>
  field ++ " must contain unicode letters -,.\x27 and not start or end with a space"

def EmailErr : RuleErrorFunc := fun field _ _ =>
  field ++ " is not a valid email"

def ResourceNameErr : RuleErrorFunc := fun field _ _ =>
  field ++ " must start with \x27mtx:\x27 and may contain: a-z, 0-9, -, /, and :"

def ResourcePatternErr : RuleErrorFunc := fun field _ _ =>
  field ++ " must start with \x27mtx:\x27 and may contain: a-z, 0-9, -, /, *, and :"

/-- The externally-implemented string predicates (the Unicode `name`/`email`
regexes, `time.LoadLocation`, BCP47 `language.Parse`,
`url.ParseRequestURI` + scheme check): their tables live outside the source
under verification, so they are parameters of the embedding.  No claim
exercises them. -/
structure ExternalCheckers where
  nameMatch : String → Bool
  emailMatch : String → Bool
  loadLocationOk : String → Bool
  parseLanguageOk : String → Bool
  parseRequestURIOk : String → Bool

/-- `Zoneinfo` of rules.go. -/
def Zoneinfo (ext : ExternalCheckers) (v : GoValue) (_param : String) : Except String Bool :=
  match v with
  | .str s => .ok (s == "" || ext.loadLocationOk s)
  | _ => .error "invalid type for zoneinfo tag"

def ZoneinfoErr : RuleErrorFunc := fun field _ _ =>
  field ++ " is not a valid zoneinfo string (example: \x27Europe/Amsterdam\x27)"

/-- `Locale` of rules.go: a space-separated list of language tags. -/
def Locale (ext : ExternalCheckers) (v : GoValue) (_param : String) : Except String Bool :=
  match v with
  | .str s => .ok (s == "" || (s.splitOn " ").all ext.parseLanguageOk)
  | _ => .error "invalid type for locale tag"

def LocaleErr : RuleErrorFunc := fun field _ _ =>
  field ++ " must contain BCP47 language tags separated by spaces"

/-- `val[:strings.Index(val, "#")]`: strip any fragment before URL parsing. -/
def stripFragment (s : String) : String :=
  match s.splitOn "#" with
  | first :: _ => first
  | [] => s

/-- `URL` of rules.go. -/
def URL (ext : ExternalCheckers) (v : GoValue) (_param : String) : Except String Bool :=
  match v with
  | .str s => if s = "" then .ok true else .ok (ext.parseRequestURIOk (stripFragment s))
  | _ => .error "invalid type for url tag"

def URLErr : RuleErrorFunc := fun field _ _ => field ++ " is not a valid url"

/-- The entries of `StandardRules`, named individually. -/
def requiredRule : ValidationRule := ⟨"required", fun v p => .ok (Required v p), some RequiredErr⟩

def optionalRule : ValidationRule := ⟨"optional", fun v p => .ok (Optional v p), none⟩

def gteRule : ValidationRule := ⟨"gte", GTE, some GTEErr⟩

def lteRule : ValidationRule := ⟨"lte", LTE, some LTEErr⟩

def genderRule : ValidationRule := ⟨"gender", Gender, some GenderErr⟩

def isodateRule : ValidationRule := ⟨"isodate", ISODate, some ISODateErr⟩

def mindateRule (now : Int) : ValidationRule := ⟨"mindate", MinDate now, some (MinDateErr now)⟩

def maxdateRule (now : Int) : ValidationRule := ⟨"maxdate", MaxDate now, some (MaxDateErr now)⟩

def nameRule (ext : ExternalCheckers) : ValidationRule :=
  ⟨"name", fun v _ => RegexChecker "name" ext.nameMatch v, some NameErr⟩

def azRule : ValidationRule := ⟨"az_", fun v _ => RegexChecker "az_" azMatch v, some AzErr⟩

def aZ09Rule : ValidationRule :=
  ⟨"aZ09_", fun v _ => RegexChecker "aZ09_" aZ09Match v, some AZ09Err⟩

def zoneinfoRule (ext : ExternalCheckers) : ValidationRule :=
  ⟨"zoneinfo", Zoneinfo ext, some ZoneinfoErr⟩

def localeRule (ext : ExternalCheckers) : ValidationRule := ⟨"locale", Locale ext, some LocaleErr⟩

def urlRule (ext : ExternalCheckers) : ValidationRule := ⟨"url", URL ext, some URLErr⟩

def emailRule (ext : ExternalCheckers) : ValidationRule :=
  ⟨"email", fun v _ => RegexChecker "email" ext.emailMatch v, some EmailErr⟩

def resourcenameRule : ValidationRule :=
  ⟨"resourcename", fun v _ => RegexChecker "resourcename" resourceNameMatch v, some ResourceNameErr⟩

def resourcepatternRule : ValidationRule :=
  ⟨"resourcepattern", fun v _ => RegexChecker "resourcepattern" resourcePatternMatch v,
    some ResourcePatternErr⟩

/-- `StandardRules` of rules.go, in source order. -/
def StandardRules (ext : ExternalCheckers) (now : Int) : List ValidationRule :=
  [ requiredRule, optionalRule, gteRule, lteRule, genderRule, isodateRule,
    mindateRule now, maxdateRule now, nameRule ext, azRule, aZ09Rule,
    zoneinfoRule ext, localeRule ext, urlRule ext, emailRule ext,
    resourcenameRule, resourcepatternRule ]

/-- `StandardAliases` of rules.go. -/
def StandardAliases : List (String × String) :=
  [("username", "aZ09_,gte=4,lte=20"), ("birthdate", "isodate,mindate=1900-01-01,maxdate=now")]

/-- `AddAlias`: parses the declaration against the current validator.  A
parse failure panics in Go; both standard aliases parse successfully, so the
error branch is unreachable for the validators built below. -/
def addAlias (mv : Validator) (aliasName tags : String) : Validator :=
  match mustParseTags mv tags with
  | .ok ts => { mv with tagAliases := (aliasName, ts) :: mv.tagAliases }
  | .error _ => mv

/-- `NewValidator(WithStandardRules())`, optionally `WithFullErrorPath()`. -/
def newStandardValidator (ext : ExternalCheckers) (now : Int) (fullPath : Bool) : Validator :=
  { tagName := "validate", rules := StandardRules ext now,
    fullErrorPath := fullPath, tagAliases := [] }

/-- `DefaultValidator = NewValidator(WithStandardRules(), WithStandardAliases())`. -/
def DefaultValidator (ext : ExternalCheckers) (now : Int) : Validator :=
  StandardAliases.foldl (fun mv a => addAlias mv a.1 a.2) (newStandardValidator ext now false)

/-- External predicates instantiated vacuously (no claim exercises them). -/
def extNone : ExternalCheckers :=
  ⟨fun _ => false, fun _ => false, fun _ => false, fun _ => false, fun _ => false⟩

/-- A closed instance of the default validator. -/
def dv : Validator := DefaultValidator extNone 0

/-- A closed instance of `NewValidator(WithFullErrorPath(), WithStandardRules())`. -/
def dvFull : Validator := newStandardValidator extNone 0 true

/-! ### The recursive value traverser -/

mutual

/-- Models `fmt.Sprintf("%+v", x)` for the representable kinds (a pointer
or channel address has no faithful pure rendering; nil prints `<nil>`). -/
def formatGoValue : GoValue → String
  | .str s => s
  | .int n => toString n
  | .uint n => toString n
  | .float x => toString x
  | .bool b => if b then "true" else "false"
  | .ptr none => "<nil>"
  | .ptr (some x) => "&" ++ formatGoValue x
  | .iface none => "<nil>"
  | .iface (some x) => formatGoValue x
  | .slice xs => "[" ++ formatGoList xs ++ "]"
  | .array xs => "[" ++ formatGoList xs ++ "]"
  | .map kvs => "map[" ++ formatGoKVs kvs ++ "]"
  | .struct fs => "\x7b" ++ formatGoFields fs ++ "\x7d"
  | .invalid => "<nil>"
  | .chanV => "<chan>"

def formatGoList : List GoValue → String
  | [] => ""
  | [x] => formatGoValue x
  | x :: rest => formatGoValue x ++ " " ++ formatGoList rest

def formatGoKVs : List (GoValue × GoValue) → String
  | [] => ""
  | [(k, v)] => formatGoValue k ++ ":" ++ formatGoValue v
  | (k, v) :: rest => formatGoValue k ++ ":" ++ formatGoValue v ++ " " ++ formatGoKVs rest

def formatGoFields : List StructField → String
  | [] => ""
  | [.mk n _ v] => n ++ ":" ++ formatGoValue v
  | .mk n _ v :: rest => n ++ ":" ++ formatGoValue v ++ " " ++ formatGoFields rest

end

/-- `string(rune(i))`: the one-character string whose code point is `i`
(this is what `validateCollection` interpolates into field paths). -/
def stringRune (i : Nat) : String := String.mk [Char.ofNat i]

/-- The tail of `validateStruct`: an empty result collapses to nil, and in
full-error-path mode the parent field name is dot-prefixed onto every
returned field. -/
def finishStruct (mv : Validator) (fieldName : String) (errs : FieldErrors) : FieldErrors :=
  if errs.isEmpty then []
  else if !mv.fullErrorPath || fieldName = "" then errs
  else errs.map (fun e => ⟨fieldName ++ "." ++ e.field, e.description⟩)

mutual

/-- `validateStruct` of validator.go.  A nil pointer is valid; a non-nil
pointer recurses on `sv.Elem().Interface()`; otherwise the struct fields are
validated (`NumField` panics on non-structs). -/
def validateStruct (mv : Validator) (value : GoValue) (fieldName : String) :
    Except String FieldErrors :=
  match value with
  | .ptr none => .ok []
  | .ptr (some x) =>
    exBind (validateStruct mv (interfaceOf x) fieldName) (fun errs =>
      .ok (finishStruct mv fieldName errs))
  | .struct fs =>
    exBind (validateStructFields mv fs) (fun errs => .ok (finishStruct mv fieldName errs))
  | _ => .error "reflect: NumField of non-struct value"
termination_by 3 * sizeOf value + 1
decreasing_by
  all_goals simp_wf
  all_goals try simp only [interfaceOf]
  all_goals try simp
  all_goals try have h1 := sizeOf_interfaceOf_le x
  all_goals try have h2 := sizeOf_derefPtrs_le fvalue
  all_goals omega

/-- `validateStructFields` of validator.go: per public field, dereference
pointers, skip `-` tags, run the tag chain (if tagged), then deep-validate
taglessly. -/
def validateStructFields (mv : Validator) : List StructField → Except String FieldErrors
  | [] => .ok []
  | .mk name tag fvalue :: rest =>
    if !isPublicField name then validateStructFields mv rest
    else
      if tag = "-" then validateStructFields mv rest
      else
        exBind (if tag = "" then .ok none
                else Field mv (interfaceOf (derefPtrs fvalue)) name tag) (fun fieldErr =>
        exBind (deepValidateTaglessField mv (derefPtrs fvalue) name) (fun deepErrs =>
        exBind (validateStructFields mv rest) (fun restErrs =>
          .ok ((match fieldErr with | some fe => [fe] | none => []) ++ deepErrs ++ restErrs))))
termination_by fs => 3 * sizeOf fs
decreasing_by
  all_goals simp_wf
  all_goals try simp only [interfaceOf]
  all_goals try simp
  all_goals try have h1 := sizeOf_interfaceOf_le x
  all_goals try have h2 := sizeOf_derefPtrs_le fvalue
  all_goals omega

/-- `deepValidateTaglessField` of validator.go. -/
def deepValidateTaglessField (mv : Validator) (value : GoValue) (field : String) :
    Except String FieldErrors :=
  match value with
  | .iface none => .ok []
  | .ptr none => .ok []
  | .iface (some x) => validateStruct mv (interfaceOf (.iface (some x))) field
  | .ptr (some x) => validateStruct mv (interfaceOf (.ptr (some x))) field
  | .struct fs => validateStruct mv (interfaceOf (.struct fs)) field
  | .array xs => validateCollection mv xs 0 field
  | .slice xs => validateCollection mv xs 0 field
  | .map kvs => validateMap mv kvs field
  | _ => .ok []
termination_by 3 * sizeOf value + 2
decreasing_by
  all_goals simp_wf
  all_goals try simp only [interfaceOf]
  all_goals try simp
  all_goals try have h1 := sizeOf_interfaceOf_le x
  all_goals try have h2 := sizeOf_derefPtrs_le fvalue
  all_goals omega

/-- `validateCollection` of validator.go.  Note the index interpolation:
`field+"["+string(rune(i))+"]"`. -/
def validateCollection (mv : Validator) (xs : List GoValue) (i : Nat) (field : String) :
    Except String FieldErrors :=
  match xs with
  | [] => .ok []
  | x :: rest =>
    exBind (deepValidateTaglessField mv x (field ++ "[" ++ stringRune i ++ "]")) (fun errs =>
    exBind (validateCollection mv rest (i + 1) field) (fun restErrs => .ok (errs ++ restErrs)))
termination_by 3 * sizeOf xs
decreasing_by
  all_goals simp_wf
  all_goals try simp only [interfaceOf]
  all_goals try simp
  all_goals try have h1 := sizeOf_interfaceOf_le x
  all_goals try have h2 := sizeOf_derefPtrs_le fvalue
  all_goals omega

/-- `validateMap` of validator.go: keys and values are deep-validated with
`%+v`-formatted path suffixes. -/
def validateMap (mv : Validator) (kvs : List (GoValue × GoValue)) (field : String) :
    Except String FieldErrors :=
  match kvs with
  | [] => .ok []
  | (k, v) :: rest =>
    exBind (deepValidateTaglessField mv k
      (field ++ "[" ++ formatGoValue (interfaceOf k) ++ "](key)")) (fun kErrs =>
    exBind (deepValidateTaglessField mv v
      (field ++ "[" ++ formatGoValue (interfaceOf k) ++ "](value)")) (fun vErrs =>
    exBind (validateMap mv rest field) (fun restErrs => .ok (kErrs ++ vErrs ++ restErrs))))
termination_by 3 * sizeOf kvs
decreasing_by
  all_goals simp_wf
  all_goals try simp only [interfaceOf]
  all_goals try simp
  all_goals try have h1 := sizeOf_interfaceOf_le x
  all_goals try have h2 := sizeOf_derefPtrs_le fvalue
  all_goals omega

end

/-- `Validator.Struct`: nil when no errors were found. -/
def runStruct (mv : Validator) (value : GoValue) : Except String (Option FieldErrors) :=
  exBind (validateStruct mv value "") (fun errs =>
    .ok (if errs.length > 0 then some errs else none))

/-! ### Error aggregation (`Fields`, result.go) -/

/-- `Fields` of validator.go.  Its arguments are already-evaluated
single-field results (`validate.Field` returns nil or a `FieldError`), so
they are modelled as `Option FieldError`; the result is nil when none
failed. -/
def Fields (errs : List (Option FieldError)) : Option FieldErrors :=
  let result := errs.foldl (fun acc e =>
    match e with
    | some fe => acc ++ [fe]
    | none => acc) ([] : FieldErrors)
  if result.isEmpty then none else some result

/-- `FieldErrors.Error()` of validator.go: comma-joined field names with a
singular/plural lead-in. -/
def fieldErrorsError (ve : FieldErrors) : String :=
  let err := ve.foldl (fun acc fe => (if acc ≠ "" then acc ++ ", " else acc) ++ fe.field) ""
  if ve.length = 1 then "field is invalid: " ++ err
  else "fields are invalid: " ++ err

/-- The error values `ValidationResult.AddError` can receive: a `FieldError`,
a `FieldErrors`, or any other non-nil error. -/
inductive ErrValue where
  | fieldError (fe : FieldError)
  | fieldErrors (fes : FieldErrors)
  | other (msg : String)

/-- `AddError` of result.go: `errors.As` matches `FieldErrors` first, then
`FieldError`; any other error — or a nil one — is dropped. -/
def AddError (errors : FieldErrors) (err : Option ErrValue) : FieldErrors :=
  match err with
  | some (.fieldErrors fes) => errors ++ fes
  | some (.fieldError fe) => errors ++ [fe]
  | some (.other _) => errors
  | none => errors

/-- `AddErrors` of result.go. -/
def AddErrors (errors : FieldErrors) (errs : List (Option ErrValue)) : FieldErrors :=
  errs.foldl AddError errors

/-- `NewResult` of result.go: skips nil arguments, `AddError`s the rest. -/
def NewResult (errs : List (Option ErrValue)) : FieldErrors :=
  errs.foldl (fun r e =>
    match e with
    | none => r
    | some ev => AddError r (some ev)) []

/-- `IsValid` of result.go. -/
def IsValid (r : FieldErrors) : Bool := r.length == 0

/-- `Err` of result.go: nil when valid, the accumulated `FieldErrors`
otherwise. -/
def resultErr (r : FieldErrors) : Option FieldErrors :=
  if IsValid r then none else some r

/-- `Error()` of result.go. -/
def resultErrorString (r : FieldErrors) : String :=
  if IsValid r then "" else fieldErrorsError r

/-- One mutating call against a `ValidationResult` after construction. -/
inductive ResultOp where
  | addError (e : Option ErrValue)
  | addErrors (es : List (Option ErrValue))

/-- The `Errors` collection after `NewResult(init...)` followed by any
sequence of `AddError`/`AddErrors` calls. -/
def runResultOps (init : List (Option ErrValue)) (ops : List ResultOp) : FieldErrors :=
  ops.foldl (fun r op =>
    match op with
    | .addError e => AddError r e
    | .addErrors es => AddErrors r es) (NewResult init)

/-- The name of the first piece of a declaration string that names neither a
registered rule nor a registered alias (or is empty after trimming). -/
def firstOffending (mv : Validator) : List String → Option String
  | [] => none
  | piece :: rest =>
    let n := pieceName piece
    if n = "" ∨ ((mv.lookupRule n).isNone ∧ (mv.lookupAlias n).isNone) then some n
    else firstOffending mv rest

/-! ### Small validators and values used by concrete instances -/

/-- A rule that always passes (for concrete chain instances). -/
def wPassRule : ValidationRule := ⟨"wpass", fun _ _ => .ok true, some (fun f _ _ => f ++ " pass-err")⟩

/-- A rule that always fails, with an error formatter. -/
def wFailRule : ValidationRule := ⟨"wfail", fun _ _ => .ok false, some (fun f _ _ => f ++ " failed")⟩

/-- A rule that always fails and, like `optional`, has no error formatter. -/
def wSilentRule : ValidationRule := ⟨"wsilent", fun _ _ => .ok false, none⟩

def wValidator : Validator := ⟨"validate", [wPassRule, wFailRule, wSilentRule], false, []⟩

/-- The `Sub2` member of the test type `complexStruct` (validator_test.go). -/
def csInner2 : GoValue := .struct [⟨"A", "required", .int 0⟩]

/-- The `Sub` member of `complexStruct`. -/
def csSub : GoValue :=
  .struct [⟨"A", "required", .int 0⟩, ⟨"B", "", .str ""⟩, ⟨"C", "required", .float 0⟩,
    ⟨"D", "required", .ptr none⟩, ⟨"Sub2", "", csInner2⟩]

/-- The zero `complexStruct` of validator_test.go: every `required` field is
zero, nested three levels deep. -/
def csVal : GoValue := .struct [⟨"A", "required", .int 0⟩, ⟨"Sub", "", csSub⟩]

/-- C2 comparison definition, following the spec text for `required`: the
kind-specific zero/empty/absent form — empty text, absent optional
(nil pointer/interface), zero-length sequence/mapping, numeric zero, boolean
false, a kindless value; a record is never the zero form. -/
def zeroEmptyAbsentForm : GoValue → Bool
  | .str s => s == ""
  | .ptr o => o.isNone
  | .iface o => o.isNone
  | .slice xs => xs.isEmpty
  | .array xs => xs.isEmpty
  | .map kvs => kvs.isEmpty
  | .int n => n == 0
  | .uint n => n == 0
  | .float x => x == 0
  | .bool b => !b
  | .invalid => true
  | .struct _ => false
  | .chanV => true

/-- The kinds the `required` rule supports.  A `reflect.Value` of kind
`Interface` holding a value never reaches a checker (`reflect.ValueOf`
flattens interfaces), and `chanV` stands for the unsupported default
kinds. -/
def requiredSupportedKind : GoValue → Bool
  | .chanV => false
  | .iface (some _) => false
  | _ => true

/-! ## Helper lemmas -/

@[simp] theorem exBind_ok (a : α) (f : α → Except String β) :
    exBind (.ok a) f = f a := rfl

@[simp] theorem exBind_error (e : String) (f : α → Except String β) :
    exBind (.error e) f = .error e := rfl

theorem bsPairsComma_rest_lt {cs : List Char} {pre rest : List Char}
    (h : bsPairsComma cs = some (pre, rest)) : rest.length < cs.length := by
  unfold bsPairsComma at h
  split at h
  · rename_i hc
    have hlt : bsRun cs < cs.length := by
      rcases hc with ⟨-, hhead⟩
      by_contra hge
      rw [List.drop_eq_nil_of_le (Nat.le_of_not_lt hge)] at hhead
      simp at hhead
    simp only [Option.some.injEq, Prod.mk.injEq] at h
    obtain ⟨-, hr⟩ := h
    subst hr
    simp [List.length_drop]
    omega
  · simp at h

theorem sepMatch_rest_lt {cs : List Char} {b : Bool} {pre rest : List Char}
    (h : sepMatch cs b = some (pre, rest)) : rest.length < cs.length := by
  unfold sepMatch at h
  split at h
  · exact bsPairsComma_rest_lt h
  · split at h
    · rename_i c t hcond
      clear hcond
      split at h
      · cases hb : bsPairsComma t with
        | none => rw [hb] at h; simp at h
        | some r =>
          obtain ⟨p2, r2⟩ := r
          rw [hb] at h
          simp at h
          obtain ⟨-, hr⟩ := h
          have hlt := bsPairsComma_rest_lt hb
          rw [← hr]
          have hc : (c :: t).length = t.length + 1 := rfl
          omega
      · simp at h
    · simp at h

/-- The fuel of `splitUCAux` is irrelevant as long as it exceeds the number
of characters: the scan is a total function of the characters. -/
theorem splitUCAux_fuel_irrelevant :
    ∀ (fuel : Nat), ∀ (fuel' : Nat) (cs : List Char) (b : Bool) (piece : List Char),
      cs.length < fuel → cs.length < fuel' →
      splitUCAux fuel cs b piece = splitUCAux fuel' cs b piece
  | 0, _, _, _, _, h, _ => absurd h (by omega)
  | _ + 1, 0, _, _, _, _, h => absurd h (by omega)
  | fuel + 1, fuel' + 1, cs, b, piece, h, h' => by
    simp only [splitUCAux]
    cases hm : sepMatch cs b with
    | some r =>
      obtain ⟨pre, rest⟩ := r
      have hlt := sepMatch_rest_lt hm
      simp [splitUCAux_fuel_irrelevant fuel fuel' rest false [] (by omega) (by omega)]
    | none =>
      cases cs with
      | nil => rfl
      | cons c t =>
        simp at h h'
        simp [splitUCAux_fuel_irrelevant fuel fuel' t false (c :: piece) (by omega) (by omega)]

theorem exBind_pure (m : Except String α) : exBind m (fun a => .ok a) = m := by
  cases m <;> rfl

/-- The rule-chain loop returns `.ok none` when every checker passes. -/
theorem evalTags_all_ok (v : GoValue) (field : String) :
    ∀ tags : List Tag, (∀ t ∈ tags, t.rule.checker v t.param = .ok true) →
      evalTags v field tags = .ok none
  | [], _ => rfl
  | t :: rest, h => by
    have ht := h t (List.mem_cons_self t rest)
    have hrest := evalTags_all_ok v field rest (fun p hp => h p (List.mem_cons_of_mem t hp))
    simp [evalTags, ht, hrest]

/-- The rule-chain loop stops at the first failing checker: without an error
function it yields no failure, with one it yields exactly that failure; the
tags after the failing one do not matter. -/
theorem evalTags_first_fail (v : GoValue) (field : String) :
    ∀ (pre : List Tag) (t : Tag) (post : List Tag),
      (∀ p ∈ pre, p.rule.checker v p.param = .ok true) →
      t.rule.checker v t.param = .ok false →
      evalTags v field (pre ++ t :: post) =
        (match t.rule.errorFunc with
         | none => .ok none
         | some ef => .ok (some ⟨field, ef field v t.info⟩))
  | [], t, post, _, ht => by simp [evalTags, ht]
  | p :: pre, t, post, hpre, ht => by
    have hp := hpre p (List.mem_cons_self p pre)
    have ih := evalTags_first_fail v field pre t post
      (fun q hq => hpre q (List.mem_cons_of_mem p hq)) ht
    simp [evalTags, hp, ih]

/-! ## The claims -/

/-- C1: evaluating the resolved Tag sequence (`singleField` / `Field`)
iterates the Tags in order; each checker returning true continues to the
next Tag; the first checker returning false ends evaluation: a Tag whose
rule has no error formatter (such as `optional`) makes the call return nil
with no failure recorded, otherwise the call returns exactly one
`FieldError{field, formatter(field, value, tag)}`, and no subsequent Tag
influences the result (the tags after the failing one are arbitrary). -/
theorem singleField_chain_protocol (mv : Validator) (v : GoValue) (field tag : String) :
    (∀ tags : List Tag, mustParseTags mv tag = .ok tags →
      (∀ t ∈ tags, t.rule.checker v t.param = .ok true) →
      singleField mv v field tag = .ok none) ∧
    (∀ (pre : List Tag) (t : Tag) (post : List Tag),
      mustParseTags mv tag = .ok (pre ++ t :: post) →
      (∀ p ∈ pre, p.rule.checker v p.param = .ok true) →
      t.rule.checker v t.param = .ok false →
      singleField mv v field tag =
        (match t.rule.errorFunc with
         | none => .ok none
         | some ef => .ok (some ⟨field, ef field v t.info⟩))) := by
  constructor
  · intro tags hparse hall
    simp [singleField, hparse, evalTags_all_ok v field tags hall]
  · intro pre t post hparse hpre ht
    simp [singleField, hparse, evalTags_first_fail v field pre t post hpre ht]

/-- The default validator in normal form: the standard rules and the two
standard aliases, `username` and `birthdate`, eagerly expanded to their rule
sequences at registration (`AddAlias`). -/
theorem DefaultValidator_eq (ext : ExternalCheckers) (now : Int) :
    DefaultValidator ext now =
      ⟨"validate", StandardRules ext now, false,
        [("birthdate",
           [⟨"isodate", isodateRule, ""⟩, ⟨"mindate", mindateRule now, "1900-01-01"⟩,
            ⟨"maxdate", maxdateRule now, "now"⟩]),
         ("username",
           [⟨"aZ09_", aZ09Rule, ""⟩, ⟨"gte", gteRule, "4"⟩, ⟨"lte", lteRule, "20"⟩])]⟩ := rfl

theorem wparse1 : mustParseTags wValidator "wpass,wfail,wpass" =
    .ok [⟨"wpass", wPassRule, ""⟩, ⟨"wfail", wFailRule, ""⟩, ⟨"wpass", wPassRule, ""⟩] := rfl

theorem wparse2 : mustParseTags wValidator "wpass" = .ok [⟨"wpass", wPassRule, ""⟩] := rfl

theorem wparse3 : mustParseTags wValidator "wsilent,wfail" =
    .ok [⟨"wsilent", wSilentRule, ""⟩, ⟨"wfail", wFailRule, ""⟩] := rfl

/-- C1 witness: the failing-with-formatter chain, the all-pass chain, and
the silently-stopping (`optional`-like) chain, each through the theorem. -/
theorem singleField_chain_protocol_witness :
    singleField wValidator (.str "v") "F" "wpass,wfail,wpass" = .ok (some ⟨"F", "F failed"⟩) ∧
    singleField wValidator (.str "v") "F" "wpass" = .ok none ∧
    singleField wValidator (.str "v") "F" "wsilent,wfail" = .ok none := by
  refine ⟨?_, ?_, ?_⟩
  · have h := (singleField_chain_protocol wValidator (.str "v") "F" "wpass,wfail,wpass").2
      [⟨"wpass", wPassRule, ""⟩] ⟨"wfail", wFailRule, ""⟩ [⟨"wpass", wPassRule, ""⟩]
      wparse1 (by intro p hp; rw [List.mem_singleton] at hp; subst hp; rfl) rfl
    exact h.trans rfl
  · exact (singleField_chain_protocol wValidator (.str "v") "F" "wpass").1
      [⟨"wpass", wPassRule, ""⟩] wparse2
      (by intro p hp; rw [List.mem_singleton] at hp; subst hp; rfl)
  · have h := (singleField_chain_protocol wValidator (.str "v") "F" "wsilent,wfail").2
      [] ⟨"wsilent", wSilentRule, ""⟩ [⟨"wfail", wFailRule, ""⟩]
      wparse3 (by intro p hp; simp at hp) rfl
    exact h.trans rfl





/-- C2: for every supported value kind, `required` returns false exactly on
that kind's zero/empty/absent form and true otherwise; a struct value always
passes regardless of its fields, and a kindless (nil interface) value always
fails. -/
theorem required_iff_not_zero_form (v : GoValue) (param : String)
    (hsup : requiredSupportedKind v = true) :
    Required v param = !zeroEmptyAbsentForm v ∧
    (∀ fs : List StructField, ∀ p, Required (.struct fs) p = true) ∧
    (∀ p, Required (.iface none) p = false ∧ Required .invalid p = false) := by
  refine ⟨?_, fun fs p => rfl, fun p => ⟨rfl, rfl⟩⟩
  cases v with
  | str s =>
    by_cases hs : s = ""
    · subst hs; rfl
    · have h1 : s.length ≠ 0 := by
        intro h
        apply hs
        cases s with
        | mk data =>
          cases data with
          | nil => rfl
          | cons c t => simp [String.length] at h
      simp [Required, zeroEmptyAbsentForm, bne, hs, h1]
  | ptr o => cases o <;> rfl
  | iface o =>
    cases o with
    | none => rfl
    | some x => simp [requiredSupportedKind] at hsup
  | slice xs => cases xs <;> rfl
  | array xs => cases xs <;> rfl
  | map kvs => cases kvs <;> rfl
  | int n => rfl
  | uint n => rfl
  | float x => rfl
  | bool b => cases b <;> rfl
  | invalid => rfl
  | struct fs => rfl
  | chanV => simp [requiredSupportedKind] at hsup

/-- C2 witness. -/
theorem required_iff_not_zero_form_witness :
    Required (.str "") "" = !zeroEmptyAbsentForm (.str "") ∧
    Required (.ptr none) "" = !zeroEmptyAbsentForm (.ptr none) ∧
    Required (.bool false) "" = !zeroEmptyAbsentForm (.bool false) ∧
    Required (.struct [.mk "A" "" (.str "")]) "" = true := by
  refine ⟨(required_iff_not_zero_form (.str "") "" rfl).1,
          (required_iff_not_zero_form (.ptr none) "" rfl).1,
          (required_iff_not_zero_form (.bool false) "" rfl).1,
          (required_iff_not_zero_form (.str "") "" rfl).2.1 [.mk "A" "" (.str "")] ""⟩

theorem fields_foldl_lemma :
    ∀ (errs : List (Option FieldError)) (acc : FieldErrors),
      errs.foldl (fun acc e =>
        match e with
        | some fe => acc ++ [fe]
        | none => acc) acc = acc ++ errs.filterMap id
  | [], acc => by simp
  | none :: rest, acc => by simp [fields_foldl_lemma rest acc]
  | some fe :: rest, acc => by simp [fields_foldl_lemma rest (acc ++ [fe])]

/-- C9: `Fields(errs...)` returns nil iff every argument is nil, and
otherwise returns exactly the errors carried by the non-nil arguments, in
argument order. -/
theorem fields_flattens (errs : List (Option FieldError)) :
    (Fields errs = none ↔ ∀ e ∈ errs, e = none) ∧
    ((∃ e ∈ errs, e ≠ none) → Fields errs = some (errs.filterMap id)) := by
  have hf : Fields errs =
      if (errs.filterMap id).isEmpty then none else some (errs.filterMap id) := by
    unfold Fields
    rw [fields_foldl_lemma errs []]
    rfl
  constructor
  · rw [hf]
    by_cases he : errs.filterMap id = []
    · simp only [he, List.isEmpty_nil, if_true]
      simp only [true_iff]
      have := List.filterMap_eq_nil_iff.mp he
      intro e hme
      simpa using this e hme
    · have hne : (errs.filterMap id).isEmpty = false := by
        simp [List.isEmpty_iff, he]
      simp only [hne, Bool.false_eq_true, if_false]
      constructor
      · intro h
        simp at h
      · intro hall
        exact absurd (List.filterMap_eq_nil_iff.mpr (by simpa using hall)) he
  · intro hex
    rw [hf]
    have hne : errs.filterMap id ≠ [] := by
      intro hnil
      obtain ⟨e, he, hne⟩ := hex
      exact hne (by simpa using List.filterMap_eq_nil_iff.mp hnil e he)
    simp [List.isEmpty_iff, hne]

/-- C9 witness. -/
theorem fields_flattens_witness :
    Fields [some ⟨"A", "a"⟩, none, some ⟨"B", "b"⟩] = some [⟨"A", "a"⟩, ⟨"B", "b"⟩] ∧
    Fields ([none, none] : List (Option FieldError)) = none := by
  constructor
  · have h := (fields_flattens [some ⟨"A", "a"⟩, none, some ⟨"B", "b"⟩]).2
      ⟨some ⟨"A", "a"⟩, by simp, by simp⟩
    exact h.trans rfl
  · exact (fields_flattens [none, none]).1.mpr (by simp)

theorem str_append_data (a b : String) : (a ++ b).data = a.data ++ b.data := by
  cases a
  cases b
  rfl

/-- The `FieldErrors.Error()` rendering always carries a non-empty lead-in. -/
theorem fieldErrorsError_ne_empty (r : FieldErrors) : fieldErrorsError r ≠ "" := by
  unfold fieldErrorsError
  intro h
  split at h
  · have hd : ("field is invalid: ").data ++
        (r.foldl (fun acc fe => (if acc ≠ "" then acc ++ ", " else acc) ++ fe.field) "").data =
        ([] : List Char) := by
      have := congrArg String.data h
      rw [str_append_data] at this
      exact this
    exact absurd (List.append_eq_nil.mp hd).1 (by decide)
  · have hd : ("fields are invalid: ").data ++
        (r.foldl (fun acc fe => (if acc ≠ "" then acc ++ ", " else acc) ++ fe.field) "").data =
        ([] : List Char) := by
      have := congrArg String.data h
      rw [str_append_data] at this
      exact this
    exact absurd (List.append_eq_nil.mp hd).1 (by decide)

theorem isValid_iff_nil (r : FieldErrors) : IsValid r = true ↔ r = [] := by
  simp [IsValid, List.length_eq_zero]

/-- C10: after any sequence of `NewResult`/`AddError`/`AddErrors` calls the
three observers agree: `IsValid` is true exactly when the accumulated
`Errors` collection is empty, `Err()` is nil exactly when `IsValid` holds
(and is the accumulated collection otherwise), and `Error()` is the empty
string exactly when `IsValid` holds. -/
theorem result_observers_agree (init : List (Option ErrValue)) (ops : List ResultOp) :
    (IsValid (runResultOps init ops) = true ↔ runResultOps init ops = []) ∧
    (resultErr (runResultOps init ops) = none ↔ IsValid (runResultOps init ops) = true) ∧
    ((IsValid (runResultOps init ops) = true → resultErr (runResultOps init ops) = none) ∧
      (IsValid (runResultOps init ops) = false →
        resultErr (runResultOps init ops) = some (runResultOps init ops))) ∧
    (resultErrorString (runResultOps init ops) = "" ↔ IsValid (runResultOps init ops) = true) := by
  refine ⟨isValid_iff_nil _, ?_, ⟨?_, ?_⟩, ?_⟩
  · unfold resultErr
    by_cases h : IsValid (runResultOps init ops) = true
    · simp [h]
    · simp [h]
  · intro h
    simp [resultErr, h]
  · intro h
    simp [resultErr, h]
  · unfold resultErrorString
    by_cases h : IsValid (runResultOps init ops) = true
    · simp [h]
    · simp [h, fieldErrorsError_ne_empty (runResultOps init ops)]

/-- C10 witness: with one `FieldError` accumulated the result is invalid and
`Err()` returns the collection. -/
theorem result_observers_agree_witness :
    IsValid (runResultOps [some (.fieldError ⟨"A", "d"⟩)] []) = false ∧
    resultErr (runResultOps [some (.fieldError ⟨"A", "d"⟩)] []) =
      some (runResultOps [some (.fieldError ⟨"A", "d"⟩)] []) :=
  ⟨rfl, (result_observers_agree [some (.fieldError ⟨"A", "d"⟩)] []).2.2.1.2 rfl⟩

/-- C3: a field whose declaration is `-` is skipped entirely — validating
the struct's fields gives the same result as validating them without that
field, wherever it occurs (so no rule checker runs on it and no recursion
into its contents occurs); and `Field(value, name, "-")` returns nil for
every value. -/
theorem dash_tag_skips_field (mv : Validator) :
    (∀ (pre : List StructField) (f : StructField) (post : List StructField),
      f.tag = "-" →
      validateStructFields mv (pre ++ f :: post) = validateStructFields mv (pre ++ post)) ∧
    (∀ (v : GoValue) (name : String), Field mv v name "-" = .ok none) := by
  constructor
  · intro pre f post hf
    induction pre with
    | nil =>
      obtain ⟨n, t, val⟩ := f
      simp only [StructField.tag] at hf
      subst hf
      simp only [List.nil_append]
      by_cases hp : isPublicField n
      · simp [validateStructFields, hp]
      · simp [validateStructFields, hp]
    | cons g rest ih =>
      obtain ⟨gn, gt, gval⟩ := g
      simp only [List.cons_append]
      rw [validateStructFields, validateStructFields]
      simp only [ih]
  · intro v name
    rw [Field.eq_def]
    simp

/-- C3 witness. -/
theorem dash_tag_skips_field_witness :
    validateStructFields dv [⟨"Bad", "-", .struct [⟨"A", "required", .str ""⟩]⟩] = .ok [] ∧
    Field dv (.str "x") "F" "-" = .ok none := by
  constructor
  · have h := (dash_tag_skips_field dv).1 []
      ⟨"Bad", "-", .struct [⟨"A", "required", .str ""⟩]⟩ [] rfl
    exact h.trans (by rw [validateStructFields.eq_def]; rfl)
  · exact (dash_tag_skips_field dv).2 (.str "x") "F"

theorem field_required_nil_ptr :
    Field dv (.ptr none) "Pointer" "required" = .ok (some ⟨"Pointer", "Pointer is required"⟩) := by
  rw [Field.eq_def]
  rfl

theorem deep_nil_ptr : deepValidateTaglessField dv (.ptr none) "Pointer" = .ok [] := by
  rw [deepValidateTaglessField.eq_def]

theorem structFields_empty : validateStructFields dv [] = .ok [] := by
  rw [validateStructFields.eq_def]

theorem structFields_nil_ptr_required :
    validateStructFields dv [⟨"Pointer", "required", .ptr none⟩] =
      .ok [⟨"Pointer", "Pointer is required"⟩] := by
  rw [validateStructFields.eq_def]
  simp [derefPtrs, interfaceOf, field_required_nil_ptr, deep_nil_ptr, structFields_empty,
    show isPublicField "Pointer" = true from rfl]

/-- C6 counterexample: a nil pointer encountered as a *tagged* struct field
does have its rule chain invoked on the nil value — here `required` fails
and validation produces a `FieldError` derived from it (this is what the
package's own test for `requiredStruct.Pointer` expects), contradicting the
claim that no rule checker is ever invoked on a nil pointer. -/
theorem nil_pointer_tagged_field_checked :
    validateStruct dv (.ptr (some (.struct [⟨"Pointer", "required", .ptr none⟩]))) "" =
      .ok [⟨"Pointer", "Pointer is required"⟩] := by
  rw [validateStruct.eq_def]
  simp only [interfaceOf]
  rw [validateStruct.eq_def]
  simp [structFields_nil_ptr_required, finishStruct, show dv.fullErrorPath = false from rfl]

/-- C6 (amended): a nil pointer or nil interface is treated as valid and not
recursed into when it is the validated value itself or is met during
tagless deep traversal; but a *tagged* field's rule chain is still invoked
on the nil value (so e.g. `required` fails on it). -/
theorem nil_not_traversed (mv : Validator) (name field : String) :
    validateStruct mv (.ptr none) name = .ok [] ∧
    deepValidateTaglessField mv (.ptr none) field = .ok [] ∧
    deepValidateTaglessField mv (.iface none) field = .ok [] ∧
    validateStructFields dv [⟨"Pointer", "required", .ptr none⟩] =
      .ok [⟨"Pointer", "Pointer is required"⟩] := by
  refine ⟨?_, ?_, ?_, structFields_nil_ptr_required⟩
  · rw [validateStruct.eq_def]
  · rw [deepValidateTaglessField.eq_def]
  · rw [deepValidateTaglessField.eq_def]

theorem structFields_nilList (mv : Validator) : validateStructFields mv [] = .ok [] := by
  rw [validateStructFields.eq_def]

theorem deep_int (mv : Validator) (n : Int) (f : String) :
    deepValidateTaglessField mv (.int n) f = .ok [] := by
  rw [deepValidateTaglessField.eq_def]

theorem deep_float (mv : Validator) (x : Int) (f : String) :
    deepValidateTaglessField mv (.float x) f = .ok [] := by
  rw [deepValidateTaglessField.eq_def]

theorem deep_str (mv : Validator) (s : String) (f : String) :
    deepValidateTaglessField mv (.str s) f = .ok [] := by
  rw [deepValidateTaglessField.eq_def]

theorem deep_ptr_none (mv : Validator) (f : String) :
    deepValidateTaglessField mv (.ptr none) f = .ok [] := by
  rw [deepValidateTaglessField.eq_def]

theorem deep_struct (mv : Validator) (fs : List StructField) (f : String) :
    deepValidateTaglessField mv (.struct fs) f = validateStruct mv (.struct fs) f := by
  rw [deepValidateTaglessField.eq_def]
  rfl

/-- With full-error-path off, `finishStruct` just passes the errors on. -/
theorem finishStruct_noPath (mv : Validator) (hm : mv.fullErrorPath = false)
    (p : String) (errs : FieldErrors) : finishStruct mv p errs = errs := by
  by_cases he : errs.isEmpty
  · simp [finishStruct, hm, he, List.isEmpty_iff.mp he]
  · simp [finishStruct, hm, he]

/-- With full-error-path on and a named parent, every error `finishStruct`
returns carries the `parent.` dot prefix. -/
theorem finishStruct_mem_full (mv : Validator) (hm : mv.fullErrorPath = true)
    (p : String) (hp : p ≠ "") (errs : FieldErrors) :
    ∀ e ∈ finishStruct mv p errs, ∃ tail, e.field = p ++ "." ++ tail := by
  intro e he
  by_cases hemp : errs.isEmpty
  · simp [finishStruct, hemp] at he
  · simp [finishStruct, hemp, hm, hp] at he
    obtain ⟨orig, -, horig⟩ := he
    exact ⟨orig.field, by rw [← horig]⟩

/-- C7 part (a): in full-error-path mode, every `FieldError` returned from a
recursion under a named parent field is prefixed with `parent.`. -/
theorem fullPath_prefixes (mv : Validator) (v : GoValue) (parent : String) (es : FieldErrors)
    (hm : mv.fullErrorPath = true) (hp : parent ≠ "")
    (h : validateStruct mv v parent = .ok es) :
    ∀ e ∈ es, ∃ tail, e.field = parent ++ "." ++ tail := by
  rw [validateStruct.eq_def] at h
  cases v with
  | ptr o =>
    cases o with
    | none =>
      simp at h
      subst h
      simp
    | some x =>
      cases hin : validateStruct mv (interfaceOf x) parent with
      | error e => simp [hin] at h
      | ok errs =>
        simp [hin] at h
        subst h
        exact finishStruct_mem_full mv hm parent hp errs
  | struct fs =>
    cases hin : validateStructFields mv fs with
    | error e => simp [hin] at h
    | ok errs =>
      simp [hin] at h
      subst h
      exact finishStruct_mem_full mv hm parent hp errs
  | str s => simp at h
  | int n => simp at h
  | uint n => simp at h
  | float x => simp at h
  | bool b => simp at h
  | iface o => simp at h
  | slice xs => simp at h
  | array xs => simp at h
  | map kvs => simp at h
  | invalid => simp at h
  | chanV => simp at h

/-- C7 part (b): with full-error-path off (the default) the parent field
name never influences the result — no prefixing at any depth. -/
theorem noPath_ignores_parent (mv : Validator) (hm : mv.fullErrorPath = false) :
    (v : GoValue) → (parent : String) →
      validateStruct mv v parent = validateStruct mv v ""
  | .ptr none, parent => by
    rw [validateStruct.eq_def]
    conv_rhs => rw [validateStruct.eq_def]
  | .ptr (some x), parent => by
    rw [validateStruct.eq_def]
    conv_rhs => rw [validateStruct.eq_def]
    simp only []
    rw [noPath_ignores_parent mv hm (interfaceOf x) parent]
    cases hin : validateStruct mv (interfaceOf x) "" with
    | error e => simp [hin]
    | ok errs => simp [hin, finishStruct_noPath mv hm]
  | .struct fs, parent => by
    rw [validateStruct.eq_def]
    conv_rhs => rw [validateStruct.eq_def]
    cases hin : validateStructFields mv fs with
    | error e => simp [hin]
    | ok errs => simp [hin, finishStruct_noPath mv hm]
  | .str s, parent => by rw [validateStruct.eq_def]; conv_rhs => rw [validateStruct.eq_def]
  | .int n, parent => by rw [validateStruct.eq_def]; conv_rhs => rw [validateStruct.eq_def]
  | .uint n, parent => by rw [validateStruct.eq_def]; conv_rhs => rw [validateStruct.eq_def]
  | .float x, parent => by rw [validateStruct.eq_def]; conv_rhs => rw [validateStruct.eq_def]
  | .bool b, parent => by rw [validateStruct.eq_def]; conv_rhs => rw [validateStruct.eq_def]
  | .iface o, parent => by rw [validateStruct.eq_def]; conv_rhs => rw [validateStruct.eq_def]
  | .slice xs, parent => by rw [validateStruct.eq_def]; conv_rhs => rw [validateStruct.eq_def]
  | .array xs, parent => by rw [validateStruct.eq_def]; conv_rhs => rw [validateStruct.eq_def]
  | .map kvs, parent => by rw [validateStruct.eq_def]; conv_rhs => rw [validateStruct.eq_def]
  | .invalid, parent => by rw [validateStruct.eq_def]; conv_rhs => rw [validateStruct.eq_def]
  | .chanV, parent => by rw [validateStruct.eq_def]; conv_rhs => rw [validateStruct.eq_def]
termination_by v => sizeOf v
decreasing_by
  have := sizeOf_interfaceOf_le x
  simp
  omega

theorem field_req_dvFull_int (n : String) :
    Field dvFull (.int 0) n "required" = .ok (some ⟨n, n ++ " is required"⟩) := by
  rw [Field.eq_def]
  rfl

theorem field_req_dvFull_float (n : String) :
    Field dvFull (.float 0) n "required" = .ok (some ⟨n, n ++ " is required"⟩) := by
  rw [Field.eq_def]
  rfl

theorem field_req_dvFull_ptrnone (n : String) :
    Field dvFull (.ptr none) n "required" = .ok (some ⟨n, n ++ " is required"⟩) := by
  rw [Field.eq_def]
  rfl

theorem field_req_dv_int (n : String) :
    Field dv (.int 0) n "required" = .ok (some ⟨n, n ++ " is required"⟩) := by
  rw [Field.eq_def]
  rfl

theorem field_req_dv_float (n : String) :
    Field dv (.float 0) n "required" = .ok (some ⟨n, n ++ " is required"⟩) := by
  rw [Field.eq_def]
  rfl

theorem field_req_dv_ptrnone (n : String) :
    Field dv (.ptr none) n "required" = .ok (some ⟨n, n ++ " is required"⟩) := by
  rw [Field.eq_def]
  rfl

theorem cs2_fields_dvFull :
    validateStructFields dvFull [⟨"A", "required", .int 0⟩] = .ok [⟨"A", "A is required"⟩] := by
  rw [validateStructFields.eq_def]
  simp [derefPtrs, interfaceOf, field_req_dvFull_int, deep_int, structFields_nilList,
    show isPublicField "A" = true from rfl]

theorem cs2_dvFull :
    validateStruct dvFull (.struct [⟨"A", "required", .int 0⟩]) "Sub2" =
      .ok [⟨"Sub2.A", "A is required"⟩] := by
  rw [validateStruct.eq_def]
  simp [cs2_fields_dvFull, finishStruct, show dvFull.fullErrorPath = true from rfl,
    show ("Sub2" : String) ≠ "" by decide]

theorem csSub_fields_dvFull :
    validateStructFields dvFull
      [⟨"A", "required", .int 0⟩, ⟨"B", "", .str ""⟩, ⟨"C", "required", .float 0⟩,
        ⟨"D", "required", .ptr none⟩, ⟨"Sub2", "", .struct [⟨"A", "required", .int 0⟩]⟩] =
    .ok [⟨"A", "A is required"⟩, ⟨"C", "C is required"⟩, ⟨"D", "D is required"⟩,
      ⟨"Sub2.A", "A is required"⟩] := by
  simp only [validateStructFields.eq_def, derefPtrs, interfaceOf]
  simp [field_req_dvFull_int, field_req_dvFull_float, field_req_dvFull_ptrnone,
    deep_int, deep_str, deep_float, deep_ptr_none, deep_struct, cs2_dvFull,
    show isPublicField "A" = true from rfl, show isPublicField "B" = true from rfl,
    show isPublicField "C" = true from rfl, show isPublicField "D" = true from rfl,
    show isPublicField "Sub2" = true from rfl]

theorem csSub_dvFull :
    validateStruct dvFull
      (.struct [⟨"A", "required", .int 0⟩, ⟨"B", "", .str ""⟩, ⟨"C", "required", .float 0⟩,
        ⟨"D", "required", .ptr none⟩, ⟨"Sub2", "", .struct [⟨"A", "required", .int 0⟩]⟩]) "Sub" =
    .ok [⟨"Sub.A", "A is required"⟩, ⟨"Sub.C", "C is required"⟩, ⟨"Sub.D", "D is required"⟩,
      ⟨"Sub.Sub2.A", "A is required"⟩] := by
  rw [validateStruct.eq_def]
  simp [csSub_fields_dvFull, finishStruct, show dvFull.fullErrorPath = true from rfl,
    show ("Sub" : String) ≠ "" by decide]

theorem csVal_dvFull :
    validateStruct dvFull (.ptr (some csVal)) "" =
      .ok [⟨"A", "A is required"⟩, ⟨"Sub.A", "A is required"⟩, ⟨"Sub.C", "C is required"⟩,
        ⟨"Sub.D", "D is required"⟩, ⟨"Sub.Sub2.A", "A is required"⟩] := by
  rw [show GoValue.ptr (some csVal) =
    GoValue.ptr (some (.struct [⟨"A", "required", .int 0⟩,
      ⟨"Sub", "", .struct [⟨"A", "required", .int 0⟩, ⟨"B", "", .str ""⟩,
        ⟨"C", "required", .float 0⟩, ⟨"D", "required", .ptr none⟩,
        ⟨"Sub2", "", .struct [⟨"A", "required", .int 0⟩]⟩]⟩])) from rfl]
  rw [validateStruct.eq_def]
  simp only [interfaceOf]
  rw [validateStruct.eq_def]
  simp only [validateStructFields.eq_def, derefPtrs, interfaceOf]
  simp [field_req_dvFull_int, deep_int, deep_struct, csSub_dvFull, structFields_nilList,
    finishStruct, show isPublicField "A" = true from rfl,
    show isPublicField "Sub" = true from rfl]

theorem cs2_fields_dv :
    validateStructFields dv [⟨"A", "required", .int 0⟩] = .ok [⟨"A", "A is required"⟩] := by
  rw [validateStructFields.eq_def]
  simp [derefPtrs, interfaceOf, field_req_dv_int, deep_int, structFields_nilList,
    show isPublicField "A" = true from rfl]

theorem cs2_dv :
    validateStruct dv (.struct [⟨"A", "required", .int 0⟩]) "Sub2" =
      .ok [⟨"A", "A is required"⟩] := by
  rw [validateStruct.eq_def]
  simp [cs2_fields_dv, finishStruct, show dv.fullErrorPath = false from rfl]

theorem csSub_fields_dv :
    validateStructFields dv
      [⟨"A", "required", .int 0⟩, ⟨"B", "", .str ""⟩, ⟨"C", "required", .float 0⟩,
        ⟨"D", "required", .ptr none⟩, ⟨"Sub2", "", .struct [⟨"A", "required", .int 0⟩]⟩] =
    .ok [⟨"A", "A is required"⟩, ⟨"C", "C is required"⟩, ⟨"D", "D is required"⟩,
      ⟨"A", "A is required"⟩] := by
  simp only [validateStructFields.eq_def, derefPtrs, interfaceOf]
  simp [field_req_dv_int, field_req_dv_float, field_req_dv_ptrnone,
    deep_int, deep_str, deep_float, deep_ptr_none, deep_struct, cs2_dv,
    show isPublicField "A" = true from rfl, show isPublicField "B" = true from rfl,
    show isPublicField "C" = true from rfl, show isPublicField "D" = true from rfl,
    show isPublicField "Sub2" = true from rfl]

theorem csSub_dv :
    validateStruct dv
      (.struct [⟨"A", "required", .int 0⟩, ⟨"B", "", .str ""⟩, ⟨"C", "required", .float 0⟩,
        ⟨"D", "required", .ptr none⟩, ⟨"Sub2", "", .struct [⟨"A", "required", .int 0⟩]⟩]) "Sub" =
    .ok [⟨"A", "A is required"⟩, ⟨"C", "C is required"⟩, ⟨"D", "D is required"⟩,
      ⟨"A", "A is required"⟩] := by
  rw [validateStruct.eq_def]
  simp [csSub_fields_dv, finishStruct, show dv.fullErrorPath = false from rfl]

theorem csVal_dv :
    validateStruct dv (.ptr (some csVal)) "" =
      .ok [⟨"A", "A is required"⟩, ⟨"A", "A is required"⟩, ⟨"C", "C is required"⟩,
        ⟨"D", "D is required"⟩, ⟨"A", "A is required"⟩] := by
  rw [show GoValue.ptr (some csVal) =
    GoValue.ptr (some (.struct [⟨"A", "required", .int 0⟩,
      ⟨"Sub", "", .struct [⟨"A", "required", .int 0⟩, ⟨"B", "", .str ""⟩,
        ⟨"C", "required", .float 0⟩, ⟨"D", "required", .ptr none⟩,
        ⟨"Sub2", "", .struct [⟨"A", "required", .int 0⟩]⟩]⟩])) from rfl]
  rw [validateStruct.eq_def]
  simp only [interfaceOf]
  rw [validateStruct.eq_def]
  simp only [validateStructFields.eq_def, derefPtrs, interfaceOf]
  simp [field_req_dv_int, deep_int, deep_struct, csSub_dv, structFields_nilList,
    finishStruct, show isPublicField "A" = true from rfl,
    show isPublicField "Sub" = true from rfl]

/-- C7: with full-error-path enabled, every `FieldError` from a recursion
nested under a named parent field carries the `parent.` dot prefix (so the
`complexStruct` failure on the innermost `A` reports `Sub.Sub2.A`); with it
disabled (the default) the parent name never influences the result, so the
same failure reports `A` at any depth; the `Description`s are identical in
both modes. -/
theorem full_error_path_behaviour :
    (∀ (mv : Validator) (v : GoValue) (parent : String) (es : FieldErrors),
      mv.fullErrorPath = true → parent ≠ "" → validateStruct mv v parent = .ok es →
      ∀ e ∈ es, ∃ tail, e.field = parent ++ "." ++ tail) ∧
    (∀ (mv : Validator), mv.fullErrorPath = false →
      ∀ (v : GoValue) (parent : String),
        validateStruct mv v parent = validateStruct mv v "") ∧
    validateStruct dvFull (.ptr (some csVal)) "" =
      .ok [⟨"A", "A is required"⟩, ⟨"Sub.A", "A is required"⟩, ⟨"Sub.C", "C is required"⟩,
        ⟨"Sub.D", "D is required"⟩, ⟨"Sub.Sub2.A", "A is required"⟩] ∧
    validateStruct dv (.ptr (some csVal)) "" =
      .ok [⟨"A", "A is required"⟩, ⟨"A", "A is required"⟩, ⟨"C", "C is required"⟩,
        ⟨"D", "D is required"⟩, ⟨"A", "A is required"⟩] :=
  ⟨fullPath_prefixes, fun mv hm => noPath_ignores_parent mv hm, csVal_dvFull, csVal_dv⟩

/-- C7 witness: the theorem applied at the nested `Sub` recursion of
`complexStruct` under the full-error-path validator, and at an arbitrary
parent name under the default one. -/
theorem full_error_path_behaviour_witness :
    (∃ tail, ("Sub.Sub2.A" : String) = "Sub" ++ "." ++ tail) ∧
    validateStruct dv csVal "AnyParent" = validateStruct dv csVal "" := by
  constructor
  · exact full_error_path_behaviour.1 dvFull
      (.struct [⟨"A", "required", .int 0⟩, ⟨"B", "", .str ""⟩, ⟨"C", "required", .float 0⟩,
        ⟨"D", "required", .ptr none⟩, ⟨"Sub2", "", .struct [⟨"A", "required", .int 0⟩]⟩])
      "Sub" _ rfl (by decide) csSub_dvFull ⟨"Sub.Sub2.A", "A is required"⟩ (by simp)
  · exact full_error_path_behaviour.2.1 dv rfl csVal "AnyParent"

theorem deep_slice (mv : Validator) (xs : List GoValue) (f : String) :
    deepValidateTaglessField mv (.slice xs) f = validateCollection mv xs 0 f := by
  rw [deepValidateTaglessField.eq_def]

theorem field_req_dvFull_strEmpty (n : String) :
    Field dvFull (.str "") n "required" = .ok (some ⟨n, n ++ " is required"⟩) := by
  rw [Field.eq_def]
  rfl

theorem elemFields_dvFull :
    validateStructFields dvFull [⟨"A", "required", .str ""⟩] = .ok [⟨"A", "A is required"⟩] := by
  rw [validateStructFields.eq_def]
  simp [derefPtrs, interfaceOf, field_req_dvFull_strEmpty, deep_str, structFields_nilList,
    show isPublicField "A" = true from rfl]

theorem elemStruct_dvFull (n : String) (hn : n ≠ "") :
    validateStruct dvFull (.struct [⟨"A", "required", .str ""⟩]) n =
      .ok [⟨n ++ "." ++ "A", "A is required"⟩] := by
  rw [validateStruct.eq_def]
  simp [elemFields_dvFull, finishStruct, show dvFull.fullErrorPath = true from rfl, hn]

theorem coll2_dvFull :
    validateCollection dvFull
      [.struct [⟨"A", "required", .str ""⟩], .struct [⟨"A", "required", .str ""⟩]] 0 "S" =
      .ok [⟨"S[" ++ String.mk [Char.ofNat 0] ++ "].A", "A is required"⟩,
           ⟨"S[" ++ String.mk [Char.ofNat 1] ++ "].A", "A is required"⟩] := by
  simp [validateCollection.eq_def, deep_struct, stringRune,
    elemStruct_dvFull "S[\x00]" (by decide), elemStruct_dvFull "S[\x01]" (by decide)]

/-- C5 (as the code behaves): `parseDate("now")` returns `time.Now().UTC()`
with its time-of-day intact (only the fixed-date branch zeroes the time).
With the current UTC time at 1970-01-01 12:00:00, the date-only value
1970-01-01 — equal to the current UTC calendar date — *fails* `mindate=now`
(the bound sits at noon, not midnight), while `maxdate=now` accepts it; at
exactly midnight it would pass.  This contradicts the claim that the bound
is the current UTC calendar date with time-of-day zero, under which today's
date satisfies both. -/
theorem mindate_now_keeps_time_of_day :
    dateOnly 43200000000000 = 0 ∧
    MinDateTime 43200000000000 0 "now" = .ok false ∧
    MaxDateTime 43200000000000 0 "now" = .ok true ∧
    minDateKind 43200000000000 (.str "1970-01-01") "now" = .ok false ∧
    maxDateKind 43200000000000 (.str "1970-01-01") "now" = .ok true ∧
    MinDateTime 0 0 "now" = .ok true := by
  refine ⟨rfl, rfl, rfl, rfl, rfl, rfl⟩

/-- C4 (as the code behaves): the tagless traversal of a slice interpolates
the element index with `string(rune(i))` — the one-character string whose
code point is `i` — not the decimal numeral, so element 0 is reported under
`S[<U+0000>].A` and element 1 under `S[<U+0001>].A`, which differ from the
decimal paths `S[0].A` / `S[1].A` the spec promises. -/
theorem collection_index_is_rune :
    validateStruct dvFull
      (.struct [⟨"S", "", .slice [.struct [⟨"A", "required", .str ""⟩],
                                  .struct [⟨"A", "required", .str ""⟩]]⟩]) "" =
      .ok [⟨"S[" ++ String.mk [Char.ofNat 0] ++ "].A", "A is required"⟩,
           ⟨"S[" ++ String.mk [Char.ofNat 1] ++ "].A", "A is required"⟩] ∧
    ("S[" ++ String.mk [Char.ofNat 0] ++ "]" ≠ "S[0]") ∧
    ("S[" ++ String.mk [Char.ofNat 1] ++ "]" ≠ "S[1]") := by
  refine ⟨?_, by decide, by decide⟩
  rw [validateStruct.eq_def]
  simp [validateStructFields.eq_def, derefPtrs, interfaceOf, deep_slice, coll2_dvFull,
    structFields_nilList, finishStruct, show isPublicField "S" = true from rfl]

theorem parsePieces_error_of_offending (mv : Validator) :
    ∀ (pieces : List String) (name : String),
      firstOffending mv pieces = some name →
      parsePieces mv pieces = .error (unknownTagMsg mv name)
  | [], name, h => by simp [firstOffending] at h
  | piece :: rest, name, h => by
    rw [firstOffending] at h
    rw [parsePieces]
    by_cases hoff : pieceName piece = "" ∨
        ((mv.lookupRule (pieceName piece)).isNone ∧ (mv.lookupAlias (pieceName piece)).isNone)
    · simp only [hoff, if_true, Option.some.injEq] at h
      subst h
      by_cases hemp : pieceName piece = ""
      · simp [hemp]
      · rcases hoff with hoff | ⟨hr, ha⟩
        · exact absurd hoff hemp
        · rw [Option.isNone_iff_eq_none] at hr ha
          simp [hemp, hr, ha]
    · simp only [hoff, if_false] at h
      have ih := parsePieces_error_of_offending mv rest name h
      push_neg at hoff
      obtain ⟨hemp, hra⟩ := hoff
      simp only [hemp, if_false]
      cases hrule : mv.lookupRule (pieceName piece) with
      | some rule => simp [ih]
      | none =>
        cases halias : mv.lookupAlias (pieceName piece) with
        | some ts => simp [ih]
        | none =>
          exfalso
          exact hra (by simp [hrule]) (by simp [halias])

theorem singleField_parse_error (mv : Validator) (v : GoValue) (field t msg : String)
    (hp : mustParseTags mv t = .error msg) :
    singleField mv v field t = .error msg := by
  simp [singleField, hp]

theorem Field_parse_error (mv : Validator) (field t msg : String) (ht : t ≠ "-")
    (hp : mustParseTags mv t = .error msg) :
    (v : GoValue) → Field mv v field t = .error msg
  | .ptr (some x) => by
    rw [Field.eq_def]
    simp only [ht, if_false]
    exact Field_parse_error mv field t msg ht hp (interfaceOf x)
  | .ptr none => by rw [Field.eq_def]; simp [ht, singleField_parse_error mv _ field t msg hp]
  | .invalid => by rw [Field.eq_def]; simp [ht, singleField_parse_error mv _ field t msg hp]
  | .str s => by rw [Field.eq_def]; simp [ht, singleField_parse_error mv _ field t msg hp]
  | .int n => by rw [Field.eq_def]; simp [ht, singleField_parse_error mv _ field t msg hp]
  | .uint n => by rw [Field.eq_def]; simp [ht, singleField_parse_error mv _ field t msg hp]
  | .float x => by rw [Field.eq_def]; simp [ht, singleField_parse_error mv _ field t msg hp]
  | .bool b => by rw [Field.eq_def]; simp [ht, singleField_parse_error mv _ field t msg hp]
  | .iface o => by rw [Field.eq_def]; simp [ht, singleField_parse_error mv _ field t msg hp]
  | .slice xs => by rw [Field.eq_def]; simp [ht, singleField_parse_error mv _ field t msg hp]
  | .array xs => by rw [Field.eq_def]; simp [ht, singleField_parse_error mv _ field t msg hp]
  | .map kvs => by rw [Field.eq_def]; simp [ht, singleField_parse_error mv _ field t msg hp]
  | .struct fs => by rw [Field.eq_def]; simp [ht, singleField_parse_error mv _ field t msg hp]
  | .chanV => by rw [Field.eq_def]; simp [ht, singleField_parse_error mv _ field t msg hp]
termination_by v => sizeOf v
decreasing_by
  have := sizeOf_interfaceOf_le x
  simp
  omega

/-- C8 (amended): for every declaration string one of whose parsed pieces
has a name that is empty after trimming or names neither a registered rule
nor a registered alias, `mustParseTags` aborts with the fixed
`unknown validate tag` message naming the first such offending name and
never yields a parsed result; `Field` propagates that abort for every value
— except that the literal declaration `-` is never parsed (`Field` and
`Struct` treat it as "validation disabled" before parsing). -/
theorem unknown_tag_aborts (mv : Validator) (t : String) (name : String)
    (hoff : firstOffending mv (splitUnescapedComma t) = some name) :
    mustParseTags mv t = .error (unknownTagMsg mv name) ∧
    (∀ tags, mustParseTags mv t ≠ .ok tags) ∧
    (∀ (v : GoValue) (field : String), t ≠ "-" →
      Field mv v field t = .error (unknownTagMsg mv name)) := by
  have hm : mustParseTags mv t = .error (unknownTagMsg mv name) :=
    parsePieces_error_of_offending mv (splitUnescapedComma t) name hoff
  refine ⟨hm, ?_, ?_⟩
  · intro tags hok
    rw [hm] at hok
    exact absurd hok (by simp)
  · intro v field ht
    exact Field_parse_error mv field t (unknownTagMsg mv name) ht hm v

/-- C8 witness: the unknown declaration `unknown` under the default
validator (the panic string the package's own test expects). -/
theorem unknown_tag_aborts_witness :
    mustParseTags dv "unknown" = .error "unknown validate tag \"unknown\"" ∧
    Field dv (.bool false) "TEST" "unknown" = .error "unknown validate tag \"unknown\"" := by
  have h := unknown_tag_aborts dv "unknown" "unknown" rfl
  exact ⟨h.1, h.2.2 (.bool false) "TEST" (by decide)⟩

/-- C8 counterexample: the declaration string `-` consists of the single
name `-`, which is registered neither as a rule nor as an alias of the
default validator — yet `Field` does not abort on it: the literal
declaration `-` short-circuits to nil before any parsing. -/
theorem dash_is_unknown_but_field_returns_nil :
    pieceName "-" = "-" ∧
    dv.lookupRule "-" = none ∧
    dv.lookupAlias "-" = none ∧
    Field dv (.str "x") "Name" "-" = .ok none := by
  refine ⟨rfl, rfl, rfl, ?_⟩
  rw [Field.eq_def]
  rfl

end GoutilsValidate
